import Mathlib

/-!
Shallow embedding of the rs-af_packet crate (file src/socket.rs), a thin
Linux AF_PACKET raw-socket wrapper.  Machine integers are modelled as Nat/Int
with explicit reductions modulo 2^w where the source relies on wrap-around:
a u8 is a Nat reduced mod 256 at its uses, a c_short (i16) value is an Int in
the range [-32768, 32768) bridged to its 16-bit twos-complement pattern by
i16ToPat / i16OfPat, and a c_ulong is a Nat truncated mod 2^16 where the
source casts it with "as c_short".  The operating system is modelled as an
oracle (OsModel) supplying the return value of each foreign call and the
contents the kernel writes back into an ioctl request; each operation returns
its result together with the list of foreign calls it issued, which embeds
the side effects of the source as observable data.  The target is the
little-endian x86_64 configuration of the source (the cfg branch actually
used for the ioctl request and for from_be / transmute byte order).
-/

/-- IFNAMESIZE from the source: byte length of the ifr_name field. -/
def IFNAMESIZE : Nat := 16

/-- IFREQUNIONSIZE from the source: byte length of the ifreq union region. -/
def IFREQUNIONSIZE : Nat := 24

/-- SIOCGIFFLAGS request identifier (decimal 35091 in the source). -/
def SIOCGIFFLAGS : Nat := 35091

/-- SIOCSIFFLAGS request identifier (decimal 35092 in the source). -/
def SIOCSIFFLAGS : Nat := 35092

/-- PACKET_FANOUT socket option identifier from the source. -/
def PACKET_FANOUT : Int := 18

/-- SOL_PACKET level constant (Linux value 263), the fixed level passed by
the source to both setsockopt and getsockopt. -/
def SOL_PACKET : Int := 263

/-- SOCK_RAW type constant (Linux value 3), the fixed second argument the
source passes to the socket call. -/
def SOCK_RAW : Int := 3

/-- AF_PACKET address family constant (Linux value 17), re-exported by the
source for callers. -/
def AF_PACKET : Int := 17

/-- IFF_PROMISC flag bit (Linux value 0x100), re-exported by the source. -/
def IFF_PROMISC : Nat := 256

/-- Protocol argument of the socket call in the source:
(ETH_P_ALL as u16).to_be() as i32 with ETH_P_ALL = 3, evaluated on a
little-endian host: byte-swapped 16-bit 3 is 0x0300 = 768. -/
def ETH_P_ALL_BE : Int := 768

/-- Byte size of a pointer-sized value on the 64-bit target; this is what
mem::size_of_val on a reference-to-pointer evaluates to in get_sock_opt. -/
def ptrSize : Nat := 8

/-- Errors surfaced by the layer: an OS error carrying the errno code
(io::Error::last_os_error), the "Interface name too long" error constructed
in IfReq::with_if_name, and the NulError-derived encoding error produced by
CString::new inside get_if_index. -/
inductive SockError where
  | osError (code : Nat)
  | nameTooLong
  | invalidNameEncoding
  deriving Repr, DecidableEq

/-- Twos-complement 16-bit pattern of a signed 16-bit value (the transmute
of an i16 to its bit pattern). -/
def i16ToPat (i : Int) : Nat := (i % 65536).toNat

/-- Signed 16-bit value of a 16-bit pattern (the reinterpretation of a bit
pattern as an i16). -/
def i16OfPat (p : Nat) : Int :=
  if p % 65536 < 32768 then ((p % 65536 : Nat) : Int)
  else ((p % 65536 : Nat) : Int) - 65536

/-- Rust bitwise-or on i16 values, expressed through their patterns. -/
def i16Or (a b : Int) : Int := i16OfPat ((i16ToPat a) ||| (i16ToPat b))

/-- Rust cast "flag as c_short" for a c_ulong flag: truncation of the 64-bit
pattern to the low 16 bits, reinterpreted as signed. -/
def ulongAsShort (u : Nat) : Int := i16OfPat u

/-- Byte swap of a 16-bit pattern: what c_short::from_be performs on the
little-endian target. -/
def bswap16 (p : Nat) : Nat := (p % 256) * 256 + p / 256 % 256

/-- Rust cast "c as i8" of a byte, as used when copying name bytes into the
c_char array of an ifreq. -/
def byteToI8 (b : Nat) : Int :=
  if b % 256 < 128 then ((b % 256 : Nat) : Int)
  else ((b % 256 : Nat) : Int) - 256

/-- IfReqUnion from the source: the 24-byte union region of an ifreq,
modelled as its byte list (each entry a u8, reduced mod 256 at reads). -/
structure IfReqUnion where
  data : List Nat
  deriving Repr, DecidableEq

/-- Default for IfReqUnion: 24 zero bytes. -/
def IfReqUnion.default : IfReqUnion := ⟨List.replicate IFREQUNIONSIZE 0⟩

/-- IfReqUnion::as_short from the source:
c_short::from_be((data[0] as c_short) << 8 | (data[1] as c_short)).
The u8 reads are reduced mod 256, the i16 shift wraps mod 2^16, and from_be
is a byte swap on the little-endian target. -/
def IfReqUnion.as_short (u : IfReqUnion) : Int :=
  let d0 := u.data.getD 0 0 % 256
  let d1 := u.data.getD 1 0 % 256
  i16OfPat (bswap16 ((d0 * 256 % 65536) ||| d1))

/-- IfReqUnion::from_short from the source: transmute the i16 to two bytes
(little-endian: low byte first) and store them in the first two slots of a
default (all-zero) union. -/
def IfReqUnion.from_short (i : Int) : IfReqUnion :=
  ⟨((IfReqUnion.default.data).set 0 (i16ToPat i % 256)).set 1 (i16ToPat i / 256)⟩

/-- IfReq from the source: 16 c_char name bytes followed by the union. -/
structure IfReq where
  ifr_name : List Int
  union : IfReqUnion
  deriving Repr, DecidableEq

/-- Default for IfReq: zeroed name, zeroed union. -/
def IfReq.default : IfReq := ⟨List.replicate IFNAMESIZE 0, IfReqUnion.default⟩

/-- The zip-based copy loop of IfReq::with_if_name: write the bytes of the
name (cast to i8) over the front of the buffer, stopping when either the
buffer or the name runs out; untouched buffer entries keep their value. -/
def copyBytes : List Int → List Nat → List Int
  | as, [] => as
  | [], _ => []
  | _ :: as, c :: cs => byteToI8 c :: copyBytes as cs

/-- IfReq::with_if_name from the source: reject names whose byte length is
at least the 16-byte buffer length with the "Interface name too long" error,
otherwise copy the name bytes over the zeroed buffer. -/
def IfReq.with_if_name (if_name : List Nat) : Except SockError IfReq :=
  let if_req := IfReq.default
  if if_name.length ≥ if_req.ifr_name.length then
    Except.error SockError.nameTooLong
  else
    Except.ok { if_req with ifr_name := copyBytes if_req.ifr_name if_name }

/-- IfReq::ifr_flags from the source: read the union as a c_short. -/
def IfReq.ifr_flags (r : IfReq) : Int := r.union.as_short

deriving instance DecidableEq for Except

/-- Socket from the source: file descriptor, interface name (modelled by its
byte list), interface index and socket type.  The struct derives Clone and
has no Drop implementation in the source. -/
structure Socket where
  fd : Int
  if_name : List Nat
  if_index : Nat
  sock_type : Int
  deriving Repr, DecidableEq

/-- One foreign call issued by the layer, recorded with the arguments the
source passes to it.  closeCall is included so that the absence of any
descriptor-closing call is expressible; the source never issues it. -/
inductive Syscall where
  | socketCall (domain : Int) (typ : Int) (proto : Int)
  | ioctlCall (fd : Int) (ident : Nat) (req : IfReq)
  | setsockoptCall (fd : Int) (level : Int) (opt : Int) (bytes : List Nat) (len : Nat)
  | getsockoptCall (fd : Int) (level : Int) (opt : Int) (optlen : Nat)
  | ifNametoindexCall (name : List Nat)
  | closeCall (fd : Int)
  deriving Repr, DecidableEq

/-- Whether a foreign call is a name-to-index resolution. -/
def Syscall.isResolve : Syscall → Bool
  | Syscall.ifNametoindexCall _ => true
  | _ => false

/-- Oracle for the operating system: return value of each foreign call and
the request contents the kernel writes back on an ioctl, plus the errno
observed by io::Error::last_os_error. -/
structure OsModel where
  socketRet : Int → Int → Int → Int
  ioctlRet : Int → Nat → IfReq → Int
  ioctlOut : Int → Nat → IfReq → IfReq
  setsockoptRet : Int → Int → Int → List Nat → Nat → Int
  getsockoptRet : Int → Int → Int → Nat → Int
  ifIndex : List Nat → Nat
  errno : Nat

/-- Result of an operation taking the handle by shared reference: the value
or error it returns, with the list of foreign calls it issued. -/
structure CallOut (α : Type) where
  result : Except SockError α
  calls : List Syscall
  deriving Repr

/-- Result of an operation taking the handle by mutable reference: the
handle afterwards, the returned value or error, and the calls issued. -/
structure MethodOut (α : Type) where
  self : Socket
  result : Except SockError α
  calls : List Syscall
  deriving Repr

/-- get_if_index from the source: CString::new rejects names containing a
null byte with a NulError-derived error; otherwise the OS lookup result is
returned as-is (if_nametoindex reports a failed lookup by returning 0, which
the source passes through as a success). -/
def get_if_index (os : OsModel) (name : List Nat) : CallOut Nat :=
  if name.contains 0 then
    ⟨Except.error SockError.invalidNameEncoding, []⟩
  else
    ⟨Except.ok (os.ifIndex name), [Syscall.ifNametoindexCall name]⟩

/-- Socket::from_if_name from the source: open the packet socket first
(socket_type, SOCK_RAW, big-endian ETH_P_ALL), fail with the OS error when
the returned descriptor is negative, then resolve the interface index with
get_if_index and build the struct.  No length check is performed on the
name. -/
def Socket.from_if_name (os : OsModel) (if_name : List Nat) (socket_type : Int) :
    CallOut Socket :=
  let fd := os.socketRet socket_type SOCK_RAW ETH_P_ALL_BE
  let tr := [Syscall.socketCall socket_type SOCK_RAW ETH_P_ALL_BE]
  if fd < 0 then
    ⟨Except.error (SockError.osError os.errno), tr⟩
  else
    match get_if_index os if_name with
    | ⟨Except.error e, tr2⟩ => ⟨Except.error e, tr ++ tr2⟩
    | ⟨Except.ok idx, tr2⟩ =>
        ⟨Except.ok { if_name := if_name, if_index := idx, sock_type := socket_type, fd := fd },
         tr ++ tr2⟩

/-- Socket::ioctl from the source: issue the ioctl with the descriptor, the
request identifier and the request, fail with the OS error exactly when the
return value is -1, otherwise return the request as the kernel left it. -/
def Socket.ioctl (s : Socket) (os : OsModel) (ident : Nat) (if_req : IfReq) :
    CallOut IfReq :=
  let retval := os.ioctlRet s.fd ident if_req
  let tr := [Syscall.ioctlCall s.fd ident if_req]
  if retval = -1 then
    ⟨Except.error (SockError.osError os.errno), tr⟩
  else
    ⟨Except.ok (os.ioctlOut s.fd ident if_req), tr⟩

/-- Socket::get_flags from the source: build the request from the interface
name and issue SIOCGIFFLAGS. -/
def Socket.get_flags (s : Socket) (os : OsModel) : CallOut IfReq :=
  match IfReq.with_if_name s.if_name with
  | Except.error e => ⟨Except.error e, []⟩
  | Except.ok req => s.ioctl os SIOCGIFFLAGS req

/-- Socket::set_flag from the source: read the current flags with
SIOCGIFFLAGS, bitwise-or in the flag (cast to c_short), rebuild a request
from the name, overwrite its union bytes with the encoded new flags and
issue SIOCSIFFLAGS.  The receiver is returned unchanged: the source body
never assigns to a field of self. -/
def Socket.set_flag (s : Socket) (os : OsModel) (flag : Nat) : MethodOut Unit :=
  match s.get_flags os with
  | ⟨Except.error e, tr⟩ => ⟨s, Except.error e, tr⟩
  | ⟨Except.ok gifReq, tr⟩ =>
    let flags := gifReq.ifr_flags
    let new_flags := i16Or flags (ulongAsShort flag)
    match IfReq.with_if_name s.if_name with
    | Except.error e => ⟨s, Except.error e, tr⟩
    | Except.ok if_req0 =>
      let if_req := { if_req0 with union := ⟨(IfReqUnion.from_short new_flags).data⟩ }
      let out := s.ioctl os SIOCSIFFLAGS if_req
      ⟨s, out.result.map (fun _ => ()), tr ++ out.calls⟩

/-- Socket::setsockopt from the source: one setsockopt call at level
SOL_PACKET with the raw bytes of the value and their exact length, failing
with the OS error exactly when the return value is non-zero.  The value of
generic type T is modelled by its in-memory byte representation, whose
length is mem::size_of_val of the value. -/
def Socket.setsockopt (s : Socket) (os : OsModel) (opt : Int) (opt_val : List Nat) :
    MethodOut Unit :=
  let ret := os.setsockoptRet s.fd SOL_PACKET opt opt_val opt_val.length
  let tr := [Syscall.setsockoptCall s.fd SOL_PACKET opt opt_val opt_val.length]
  if ret = 0 then ⟨s, Except.ok (), tr⟩
  else ⟨s, Except.error (SockError.osError os.errno), tr⟩

/-- Free function get_sock_opt from the source: the option length passed to
getsockopt is mem::size_of_val of a reference-to-pointer, i.e. the pointer
size, independent of the option requested; the call fails with the OS error
exactly when the return value is non-zero. -/
def get_sock_opt (os : OsModel) (fd : Int) (opt : Int) : CallOut Unit :=
  let optlen := ptrSize
  let ret := os.getsockoptRet fd SOL_PACKET opt optlen
  let tr := [Syscall.getsockoptCall fd SOL_PACKET opt optlen]
  if ret = 0 then ⟨Except.ok (), tr⟩
  else ⟨Except.error (SockError.osError os.errno), tr⟩

/-- Socket::getsockopt from the source: delegate to get_sock_opt with the
descriptor of the handle; the receiver is returned unchanged. -/
def Socket.getsockopt (s : Socket) (os : OsModel) (opt : Int) : MethodOut Unit :=
  let out := get_sock_opt os s.fd opt
  ⟨s, out.result, out.calls⟩

/-- Clone of Socket, derived in the source: a field-wise copy, so the clone
carries the same descriptor value. -/
def Socket.clone (s : Socket) : Socket := s

/-- Foreign calls issued when a Socket is destroyed.  The source defines no
Drop implementation for Socket and never imports or invokes close, so
destruction runs only the derived field drops and issues no foreign call. -/
def Socket.dropCalls (_ : Socket) : List Syscall := []

/-- Concrete OS oracle used by witnesses and counterexamples: the socket
call hands out descriptor 3, every control and option call succeeds, the
kernel leaves ioctl requests unchanged, and no name resolves (index 0). -/
def osStub : OsModel :=
  { socketRet := fun _ _ _ => 3
    ioctlRet := fun _ _ _ => 0
    ioctlOut := fun _ _ r => r
    setsockoptRet := fun _ _ _ _ _ => 0
    getsockoptRet := fun _ _ _ _ => 0
    ifIndex := fun _ => 0
    errno := 1 }

/-- Concrete handle used by witnesses: descriptor 3, name "e", index 2,
type AF_PACKET. -/
def sockStub : Socket := ⟨3, [101], 2, 17⟩

theorem i16ToPat_lt (i : Int) : i16ToPat i < 65536 := by
  unfold i16ToPat
  omega

theorem i16ToPat_i16OfPat (p : Nat) : i16ToPat (i16OfPat p) = p % 65536 := by
  unfold i16ToPat i16OfPat
  split <;> omega

theorem i16OfPat_i16ToPat (f : Int) (h1 : -32768 ≤ f) (h2 : f < 32768) :
    i16OfPat (i16ToPat f) = f := by
  unfold i16ToPat i16OfPat
  split <;> omega

theorem i16OfPat_lower (p : Nat) : -32768 ≤ i16OfPat p := by
  unfold i16OfPat
  split <;> omega

theorem i16OfPat_upper (p : Nat) : i16OfPat p < 32768 := by
  unfold i16OfPat
  split <;> omega

theorem i16ToPat_i16Or (a b : Int) :
    i16ToPat (i16Or a b) = (i16ToPat a) ||| (i16ToPat b) := by
  unfold i16Or
  rw [i16ToPat_i16OfPat]
  apply Nat.mod_eq_of_lt
  have h : (65536 : Nat) = 2 ^ 16 := by norm_num
  rw [h]
  exact Nat.or_lt_two_pow (h ▸ i16ToPat_lt a) (h ▸ i16ToPat_lt b)

theorem i16ToPat_ulongAsShort (u : Nat) : i16ToPat (ulongAsShort u) = u % 65536 :=
  i16ToPat_i16OfPat u

theorem from_short_getD0 (i : Int) :
    (IfReqUnion.from_short i).data.getD 0 0 = i16ToPat i % 256 := rfl

theorem from_short_getD1 (i : Int) :
    (IfReqUnion.from_short i).data.getD 1 0 = i16ToPat i / 256 := rfl

theorem as_short_pat (u : IfReqUnion) :
    u.as_short =
      i16OfPat (bswap16 ((u.data.getD 0 0 % 256 * 256 % 65536) ||| (u.data.getD 1 0 % 256))) :=
  rfl

/-- C6: the flags encode/decode pair on the union region round-trips: for
every signed 16-bit value f, writing f into the first two union bytes with
IfReqUnion.from_short and reading it back with IfReqUnion.as_short yields f
again. -/
theorem as_short_from_short_roundtrip (f : Int) (h1 : -32768 ≤ f) (h2 : f < 32768) :
    (IfReqUnion.from_short f).as_short = f := by
  rw [as_short_pat, from_short_getD0, from_short_getD1]
  have hp : i16ToPat f < 65536 := i16ToPat_lt f
  have e1 : i16ToPat f % 256 % 256 = i16ToPat f % 256 := by omega
  have e2 : i16ToPat f % 256 * 256 % 65536 = i16ToPat f % 256 * 256 := by omega
  have e3 : i16ToPat f / 256 % 256 = i16ToPat f / 256 := by omega
  rw [e1, e2, e3]
  have e4 : i16ToPat f % 256 * 256 = 2 ^ 8 * (i16ToPat f % 256) := by ring
  have e5 : i16ToPat f / 256 < 2 ^ 8 := by omega
  rw [e4, ← Nat.mul_add_lt_is_or e5]
  have hbs : ∀ q r : Nat, q < 256 → r < 256 → bswap16 (2 ^ 8 * q + r) = r * 256 + q := by
    intro q r hq hr
    unfold bswap16
    have h256 : (2 : Nat) ^ 8 = 256 := by norm_num
    rw [h256]
    omega
  have e6 : bswap16 (2 ^ 8 * (i16ToPat f % 256) + i16ToPat f / 256) = i16ToPat f := by
    rw [hbs (i16ToPat f % 256) (i16ToPat f / 256) (by omega) (by omega)]
    omega
  rw [e6]
  exact i16OfPat_i16ToPat f h1 h2

/-- Witness for C6 at the concrete value -259. -/
theorem as_short_from_short_roundtrip_witness :
    (-32768 ≤ (-259 : Int)) ∧ ((-259 : Int) < 32768) ∧
      (IfReqUnion.from_short (-259)).as_short = -259 :=
  ⟨by decide, by decide, as_short_from_short_roundtrip (-259) (by decide) (by decide)⟩

theorem copyBytes_replicate (cs : List Nat) (n : Nat) (h : cs.length ≤ n) :
    copyBytes (List.replicate n 0) cs =
      cs.map byteToI8 ++ List.replicate (n - cs.length) 0 := by
  induction cs generalizing n with
  | nil =>
    cases n <;> simp [copyBytes, List.replicate_succ]
  | cons c cs ih =>
    cases n with
    | zero => simp at h
    | succ m =>
      rw [List.replicate_succ]
      simp only [copyBytes, List.map_cons, List.cons_append]
      rw [ih m (by simpa using h)]
      simp [Nat.succ_sub_succ]

theorem with_if_name_ok (if_name : List Nat) (h : if_name.length < 16) :
    IfReq.with_if_name if_name =
      Except.ok ⟨copyBytes (List.replicate 16 0) if_name, IfReqUnion.default⟩ := by
  unfold IfReq.with_if_name
  simp only [IfReq.default, IFNAMESIZE, List.length_replicate, ge_iff_le]
  rw [if_neg (by omega)]

/-- C10: for every accepted interface name (byte length strictly below 16),
IfReq.with_if_name builds a 16-byte name buffer holding the name bytes (cast
to i8) followed by zero padding, and the final byte of the buffer is zero,
so the buffer handed to the ioctls is null-terminated. -/
theorem with_if_name_pads (if_name : List Nat) (h : if_name.length < IFNAMESIZE) :
    IfReq.with_if_name if_name =
      Except.ok ⟨if_name.map byteToI8 ++ List.replicate (IFNAMESIZE - if_name.length) 0,
        IfReqUnion.default⟩
    ∧ (if_name.map byteToI8 ++ List.replicate (IFNAMESIZE - if_name.length) 0).length
        = IFNAMESIZE
    ∧ (if_name.map byteToI8 ++
        List.replicate (IFNAMESIZE - if_name.length) 0).getD (IFNAMESIZE - 1) 1 = 0 := by
  have hlen : if_name.length < 16 := h
  refine ⟨?_, ?_, ?_⟩
  · rw [with_if_name_ok if_name hlen, copyBytes_replicate if_name 16 (Nat.le_of_lt hlen)]
    rfl
  · simp [IFNAMESIZE]
    omega
  · rw [List.getD_eq_getElem?_getD, List.getElem?_append_right (by simp [IFNAMESIZE]; omega)]
    rw [List.getElem?_replicate]
    rw [if_pos (by simp [IFNAMESIZE]; omega)]
    rfl

/-- Witness for C10 at the concrete name bytes of "eth0". -/
theorem with_if_name_pads_witness :
    ([101, 116, 104, 48] : List Nat).length < IFNAMESIZE ∧
    (IfReq.with_if_name [101, 116, 104, 48] =
      Except.ok ⟨[101, 116, 104, 48].map byteToI8 ++
          List.replicate (IFNAMESIZE - ([101, 116, 104, 48] : List Nat).length) 0,
        IfReqUnion.default⟩
    ∧ ([101, 116, 104, 48].map byteToI8 ++
        List.replicate (IFNAMESIZE - ([101, 116, 104, 48] : List Nat).length) 0).length
        = IFNAMESIZE
    ∧ ([101, 116, 104, 48].map byteToI8 ++
        List.replicate (IFNAMESIZE - ([101, 116, 104, 48] : List Nat).length) 0).getD
          (IFNAMESIZE - 1) 1 = 0) :=
  ⟨by decide, with_if_name_pads [101, 116, 104, 48] (by decide)⟩

theorem get_if_index_result_eq (os : OsModel) (name : List Nat) :
    (get_if_index os name).result =
      (if name.contains 0 then Except.error SockError.invalidNameEncoding
       else Except.ok (os.ifIndex name)) := by
  unfold get_if_index
  by_cases hc : (0 : Nat) ∈ name <;> simp [hc]

/-- C2: get_if_index fails with the encoding error exactly when the name
contains an embedded null byte; otherwise it returns the OS lookup result as
a success, in particular index 0 for a name that does not resolve to an
existing interface (if_nametoindex reports that case by returning 0). -/
theorem get_if_index_spec (os : OsModel) (name : List Nat) :
    (get_if_index os name).result =
      (if name.contains 0 then Except.error SockError.invalidNameEncoding
       else Except.ok (os.ifIndex name))
    ∧ ((get_if_index os name).result = Except.error SockError.invalidNameEncoding ↔
        name.contains 0 = true) := by
  unfold get_if_index
  by_cases hc : (0 : Nat) ∈ name <;> simp [hc]

/-- C1 counterexample: for the 16-byte name made of 16 times the byte 97,
whose length equals the field limit, construction does not fail with the
too-long-name error: with an OS that hands out descriptor 3 and resolves no
name, from_if_name succeeds, returns index 0, and its first foreign call is
the descriptor-opening socket call, issued before the name is looked at. -/
theorem from_if_name_long_name_counterexample :
    (Socket.from_if_name osStub (List.replicate 16 97) 17).result =
      Except.ok ⟨3, List.replicate 16 97, 0, 17⟩
    ∧ (Socket.from_if_name osStub (List.replicate 16 97) 17).calls.head? =
      some (Syscall.socketCall 17 SOCK_RAW ETH_P_ALL_BE) := by
  constructor <;> rfl

/-- C1 amended: from_if_name performs no length check on the interface name;
it opens the socket first (the socket call is always its first foreign call)
and fails only when that call returns a negative descriptor (OS error) or
when the name contains an embedded null byte (encoding error).  A too-long
name without nulls constructs successfully, with whatever index the OS
lookup returns (0 when the name does not resolve). -/
theorem from_if_name_spec (os : OsModel) (name : List Nat) (st : Int) :
    (Socket.from_if_name os name st).result =
      (if os.socketRet st SOCK_RAW ETH_P_ALL_BE < 0 then
        Except.error (SockError.osError os.errno)
       else if name.contains 0 then Except.error SockError.invalidNameEncoding
       else Except.ok ⟨os.socketRet st SOCK_RAW ETH_P_ALL_BE, name, os.ifIndex name, st⟩)
    ∧ (Socket.from_if_name os name st).calls.head? =
        some (Syscall.socketCall st SOCK_RAW ETH_P_ALL_BE) := by
  unfold Socket.from_if_name get_if_index
  by_cases hfd : os.socketRet st SOCK_RAW ETH_P_ALL_BE < 0 <;>
    by_cases hc : (0 : Nat) ∈ name <;> simp [hfd, hc]

/-- C3: get_sock_opt passes to the OS option-get call a buffer length equal
to the size of a pointer-sized value (8 bytes on the 64-bit target), the
same constant for every option identifier rather than the size of the
own data of the option, and it returns the OS error exactly when the underlying
call returns non-zero; Socket.getsockopt delegates to it with the descriptor
of the handle. -/
theorem get_sock_opt_ptr_size (os : OsModel) (s : Socket) (fd opt : Int) :
    (get_sock_opt os fd opt).calls = [Syscall.getsockoptCall fd SOL_PACKET opt ptrSize]
    ∧ ptrSize = 8
    ∧ ((get_sock_opt os fd opt).result =
        (if os.getsockoptRet fd SOL_PACKET opt ptrSize = 0 then Except.ok ()
         else Except.error (SockError.osError os.errno)))
    ∧ (s.getsockopt os opt).calls = [Syscall.getsockoptCall s.fd SOL_PACKET opt ptrSize]
    ∧ (s.getsockopt os opt).result = (get_sock_opt os s.fd opt).result := by
  refine ⟨?_, rfl, ?_, ?_, rfl⟩
  · unfold get_sock_opt
    dsimp only
    split <;> rfl
  · unfold get_sock_opt
    dsimp only
    split <;> rename_i h <;> simp [h]
  · unfold Socket.getsockopt get_sock_opt
    dsimp only
    split <;> rfl

/-- C8: Socket.setsockopt always issues the option-set call at the fixed
SOL_PACKET level, passing the raw byte representation of the supplied value
and a length equal to the exact byte size of that value, for every value and
option identifier; it fails with the OS error exactly when the call returns
non-zero. -/
theorem setsockopt_spec (os : OsModel) (s : Socket) (opt : Int) (opt_val : List Nat) :
    (s.setsockopt os opt opt_val).calls =
      [Syscall.setsockoptCall s.fd SOL_PACKET opt opt_val opt_val.length]
    ∧ ((s.setsockopt os opt opt_val).result =
        (if os.setsockoptRet s.fd SOL_PACKET opt opt_val opt_val.length = 0 then
          Except.ok ()
         else Except.error (SockError.osError os.errno))) := by
  unfold Socket.setsockopt
  by_cases h : os.setsockoptRet s.fd SOL_PACKET opt opt_val opt_val.length = 0 <;>
    simp [h]

/-- C7: every operation returns an error carrying the OS-reported code
exactly when its underlying call returns its failure indicator: socket open
iff the returned descriptor is negative, ioctl iff the return value is -1,
setsockopt and getsockopt iff the return value is non-zero; each operation
issues its call exactly once (the recorded call list of each primitive is a
singleton, so nothing is retried), and the single exception is index
resolution, which returns the OS result (0 for a failed lookup) as a
success whenever the name has no embedded null. -/
theorem os_error_iff_failure (os : OsModel) (s : Socket) (ident : Nat) (req : IfReq)
    (opt fd st : Int) (bytes name : List Nat) :
    ((s.ioctl os ident req).result = Except.error (SockError.osError os.errno) ↔
      os.ioctlRet s.fd ident req = -1)
    ∧ (s.ioctl os ident req).calls = [Syscall.ioctlCall s.fd ident req]
    ∧ ((s.setsockopt os opt bytes).result = Except.error (SockError.osError os.errno) ↔
        ¬ os.setsockoptRet s.fd SOL_PACKET opt bytes bytes.length = 0)
    ∧ ((get_sock_opt os fd opt).result = Except.error (SockError.osError os.errno) ↔
        ¬ os.getsockoptRet fd SOL_PACKET opt ptrSize = 0)
    ∧ ((Socket.from_if_name os name st).result = Except.error (SockError.osError os.errno) ↔
        os.socketRet st SOCK_RAW ETH_P_ALL_BE < 0)
    ∧ (get_if_index os name).result =
        (if name.contains 0 then Except.error SockError.invalidNameEncoding
         else Except.ok (os.ifIndex name)) := by
  refine ⟨?_, ?_, ?_, ?_, ?_, get_if_index_result_eq os name⟩
  · unfold Socket.ioctl
    by_cases h : os.ioctlRet s.fd ident req = -1 <;> simp [h]
  · unfold Socket.ioctl
    by_cases h : os.ioctlRet s.fd ident req = -1 <;> simp [h]
  · unfold Socket.setsockopt
    by_cases h : os.setsockoptRet s.fd SOL_PACKET opt bytes bytes.length = 0 <;> simp [h]
  · unfold get_sock_opt
    by_cases h : os.getsockoptRet fd SOL_PACKET opt ptrSize = 0 <;> simp [h]
  · unfold Socket.from_if_name get_if_index
    by_cases hfd : os.socketRet st SOCK_RAW ETH_P_ALL_BE < 0 <;>
      by_cases hc : (0 : Nat) ∈ name <;> simp [hfd, hc]

theorem ioctl_calls (s : Socket) (os : OsModel) (ident : Nat) (req : IfReq) :
    (s.ioctl os ident req).calls = [Syscall.ioctlCall s.fd ident req] := by
  unfold Socket.ioctl
  dsimp only
  split <;> rfl

/-- C4: set_flag first reads the current flags with a SIOCGIFFLAGS request
and then issues a SIOCSIFFLAGS request whose union carries exactly the
bitwise or of the flags the kernel returned and the requested flag bit
(truncated to 16 bits): at the pattern level the written value is the
Nat.lor of the old pattern and the bit pattern, so every bit set in the old
flags is still set in the written flags and no bit is cleared. -/
theorem set_flag_spec (os : OsModel) (s : Socket) (flag : Nat) (req : IfReq)
    (hreq : IfReq.with_if_name s.if_name = Except.ok req)
    (hret : os.ioctlRet s.fd SIOCGIFFLAGS req ≠ -1) :
    (s.set_flag os flag).calls =
      [Syscall.ioctlCall s.fd SIOCGIFFLAGS req,
       Syscall.ioctlCall s.fd SIOCSIFFLAGS
         { req with union := (IfReqUnion.from_short
             (i16Or (os.ioctlOut s.fd SIOCGIFFLAGS req).ifr_flags (ulongAsShort flag))) }]
    ∧ i16ToPat (i16Or (os.ioctlOut s.fd SIOCGIFFLAGS req).ifr_flags (ulongAsShort flag))
        = (i16ToPat (os.ioctlOut s.fd SIOCGIFFLAGS req).ifr_flags) ||| (flag % 65536)
    ∧ (∀ k, (i16ToPat (os.ioctlOut s.fd SIOCGIFFLAGS req).ifr_flags).testBit k = true →
        (i16ToPat (i16Or (os.ioctlOut s.fd SIOCGIFFLAGS req).ifr_flags
          (ulongAsShort flag))).testBit k = true) := by
  have h1 : s.get_flags os = ⟨Except.ok (os.ioctlOut s.fd SIOCGIFFLAGS req),
      [Syscall.ioctlCall s.fd SIOCGIFFLAGS req]⟩ := by
    unfold Socket.get_flags
    rw [hreq]
    unfold Socket.ioctl
    dsimp only
    rw [if_neg hret]
  refine ⟨?_, ?_, ?_⟩
  · unfold Socket.set_flag
    rw [h1, hreq]
    dsimp only
    rw [ioctl_calls]
    rfl
  · rw [i16ToPat_i16Or, i16ToPat_ulongAsShort]
  · intro k hk
    rw [i16ToPat_i16Or, Nat.testBit_or, hk]
    rfl

/-- Request built from the one-byte name of sockStub, used by the C4
witness. -/
def c4req : IfReq := ⟨(101 : Int) :: List.replicate 15 0, IfReqUnion.default⟩

/-- Witness for C4 with the stub OS, the stub handle and the promiscuous
flag bit. -/
theorem set_flag_spec_witness :
    IfReq.with_if_name sockStub.if_name = Except.ok c4req
    ∧ osStub.ioctlRet sockStub.fd SIOCGIFFLAGS c4req ≠ -1
    ∧ ((sockStub.set_flag osStub IFF_PROMISC).calls =
        [Syscall.ioctlCall sockStub.fd SIOCGIFFLAGS c4req,
         Syscall.ioctlCall sockStub.fd SIOCSIFFLAGS
           { c4req with union := (IfReqUnion.from_short
               (i16Or (osStub.ioctlOut sockStub.fd SIOCGIFFLAGS c4req).ifr_flags
                 (ulongAsShort IFF_PROMISC))) }]
      ∧ i16ToPat (i16Or (osStub.ioctlOut sockStub.fd SIOCGIFFLAGS c4req).ifr_flags
            (ulongAsShort IFF_PROMISC))
          = (i16ToPat (osStub.ioctlOut sockStub.fd SIOCGIFFLAGS c4req).ifr_flags) |||
            (IFF_PROMISC % 65536)
      ∧ (∀ k, (i16ToPat (osStub.ioctlOut sockStub.fd SIOCGIFFLAGS c4req).ifr_flags).testBit k
            = true →
          (i16ToPat (i16Or (osStub.ioctlOut sockStub.fd SIOCGIFFLAGS c4req).ifr_flags
            (ulongAsShort IFF_PROMISC))).testBit k = true)) :=
  ⟨by decide, by decide,
    set_flag_spec osStub sockStub IFF_PROMISC c4req (by decide) (by decide)⟩

theorem get_flags_no_resolve (s : Socket) (os : OsModel) :
    (s.get_flags os).calls.countP Syscall.isResolve = 0 := by
  unfold Socket.get_flags
  split
  · rfl
  · rw [ioctl_calls]
    rfl

theorem set_flag_no_resolve (s : Socket) (os : OsModel) (flag : Nat) :
    (s.set_flag os flag).calls.countP Syscall.isResolve = 0 := by
  unfold Socket.set_flag
  rcases hg : s.get_flags os with ⟨gres, gtr⟩
  have hgtr : gtr.countP Syscall.isResolve = 0 := by
    have h := get_flags_no_resolve s os
    rw [hg] at h
    exact h
  cases gres with
  | error e => exact hgtr
  | ok gifReq =>
    dsimp only
    split
    · exact hgtr
    · dsimp only
      rw [List.countP_append, hgtr, ioctl_calls]
      rfl

/-- C9: after construction no operation modifies a field of the handle:
set_flag, setsockopt and getsockopt return the receiver unchanged (the
source bodies never assign to a field of self), none of them issues a
name-to-index resolution, and a successful construction resolves the index
exactly once (its call list contains exactly one resolution call). -/
theorem frame_ops (os : OsModel) (s : Socket) (flag : Nat) (opt : Int) (bytes : List Nat) :
    (s.set_flag os flag).self = s
    ∧ (s.setsockopt os opt bytes).self = s
    ∧ (s.getsockopt os opt).self = s
    ∧ (s.set_flag os flag).calls.countP Syscall.isResolve = 0
    ∧ (s.setsockopt os opt bytes).calls.countP Syscall.isResolve = 0
    ∧ (s.getsockopt os opt).calls.countP Syscall.isResolve = 0
    ∧ ∀ name st sock, (Socket.from_if_name os name st).result = Except.ok sock →
        (Socket.from_if_name os name st).calls.countP Syscall.isResolve = 1 := by
  refine ⟨?_, ?_, ?_, set_flag_no_resolve s os flag, ?_, ?_, ?_⟩
  · unfold Socket.set_flag
    split
    · rfl
    · dsimp only
      split <;> rfl
  · unfold Socket.setsockopt
    dsimp only
    split <;> rfl
  · rfl
  · unfold Socket.setsockopt
    dsimp only
    split <;> rfl
  · unfold Socket.getsockopt get_sock_opt
    dsimp only
    split <;> rfl
  · intro name st sock h
    unfold Socket.from_if_name get_if_index at h ⊢
    by_cases hfd : os.socketRet st SOCK_RAW ETH_P_ALL_BE < 0
    · simp [hfd] at h
    · by_cases hc : (0 : Nat) ∈ name
      · simp [hfd, hc] at h
      · simp [hfd, hc, List.countP_cons, Syscall.isResolve]

/-- Witness for C9: with the stub OS, construction from the one-byte name
succeeds and its call list contains exactly one resolution call. -/
theorem frame_ops_witness :
    (Socket.from_if_name osStub ([101] : List Nat) 17).result = Except.ok ⟨3, [101], 0, 17⟩
    ∧ (Socket.from_if_name osStub ([101] : List Nat) 17).calls.countP Syscall.isResolve = 1 :=
  ⟨by decide,
    (frame_ops osStub sockStub 0 0 []).2.2.2.2.2.2 [101] 17 ⟨3, [101], 0, 17⟩ (by decide)⟩

/-- C5 counterexample: destroying a handle does not close its descriptor:
the source has no Drop implementation and never calls close, so the
destruction of the concrete handle with descriptor 3 issues no foreign call
at all, in particular no close of descriptor 3; moreover the derived Clone
produces a second handle carrying the same descriptor 3, so the layer
itself permits duplicating the descriptor. -/
theorem drop_leaks_counterexample :
    Socket.dropCalls sockStub = []
    ∧ (Socket.dropCalls sockStub).contains (Syscall.closeCall 3) = false
    ∧ (Socket.clone sockStub).fd = 3 :=
  ⟨rfl, rfl, rfl⟩

/-- C5 amended: destruction of a handle issues no foreign call, so the
descriptor is never closed by the layer (it leaks when the owning scope
ends), and the derived clone operation copies the handle field-wise, so the
clone carries the same descriptor value as the original. -/
theorem drop_and_clone_spec (s : Socket) :
    Socket.dropCalls s = [] ∧ Socket.clone s = s :=
  ⟨rfl, rfl⟩

/-- Witness for C2: resolving the one-byte null-free name with the stub OS,
where no name resolves, yields index 0 as a success. -/
theorem get_if_index_spec_witness :
    (get_if_index osStub [101]).result =
      (if ([101] : List Nat).contains 0 then Except.error SockError.invalidNameEncoding
       else Except.ok (osStub.ifIndex [101])) :=
  (get_if_index_spec osStub [101]).1

/-- Witness for C7: the ioctl of the stub handle issues exactly one foreign
call with its descriptor. -/
theorem os_error_iff_failure_witness :
    (sockStub.ioctl osStub SIOCGIFFLAGS IfReq.default).calls =
      [Syscall.ioctlCall sockStub.fd SIOCGIFFLAGS IfReq.default] :=
  (os_error_iff_failure osStub sockStub SIOCGIFFLAGS IfReq.default 18 5 17 [] [101]).2.1
